import Mathlib

/-! Verification of the stream session manager backend (`src/backend/index.js`).

The JavaScript source is shallowly embedded: JS `undefined`-able values become
`Option`, JS truthiness is modelled explicitly, the `activeStreams` `Map` is an
association list with JS `Map` semantics, spawned encoder processes are entries
of an explicit process table, and the WebSocket broadcaster is a log of emitted
events.  Handler bodies are translated statement by statement from the source;
asynchronous callbacks (the completion callback of `exec`, `stdout` data events)
become explicit transitions of a server state machine.
-/

namespace MultiStream

/-! ## JS value helpers -/
/-- Truthiness of a possibly-`undefined` JS string: `undefined` and `""` are
falsy, every other string is truthy. -/
def strTruthy : Option String → Bool
  | none => false
  | some s => !(s == "")

/-- JS `v || d` for a possibly-undefined string `v`: the default is used when
the field is `undefined` or the empty string (both falsy). -/
def jsOrStr (v : Option String) (d : String) : String :=
  match v with
  | none => d
  | some s => if s == "" then d else s

/-- JS `v || d` for a possibly-undefined number `v` (here a natural): the
default is used when the field is `undefined` or `0` (both falsy). -/
def jsOrNat (v : Option Nat) (d : Nat) : Nat :=
  match v with
  | none => d
  | some n => if n == 0 then d else n

/-- Truthiness of a possibly-undefined JS boolean. -/
def boolTruthy : Option Bool → Bool
  | none => false
  | some b => b

/-! ## JS `Map` as an association list

`Map.set` replaces in place when the key exists (preserving insertion order)
and appends otherwise; `get` returns the bound value or `undefined`;
`delete` removes the binding; `has` tests membership. -/
def jsMapHas {V : Type} (m : List (String × V)) (k : String) : Bool :=
  m.any (fun p => p.1 == k)

def jsMapGet {V : Type} (m : List (String × V)) (k : String) : Option V :=
  (m.find? (fun p => p.1 == k)).map (·.2)

def jsMapSet {V : Type} (m : List (String × V)) (k : String) (v : V) :
    List (String × V) :=
  if jsMapHas m k then m.map (fun p => if p.1 == k then (k, v) else p)
  else m ++ [(k, v)]

def jsMapDelete {V : Type} (m : List (String × V)) (k : String) :
    List (String × V) :=
  m.filter (fun p => !(p.1 == k))

/-! ## Decimal rendering of JS numbers

`Date.now().toString()` and the zero-padded fields of `toISOString` render
naturals in decimal.  `decCharsAux` carries explicit fuel so that it is
structurally recursive (and hence reduces in the kernel). -/
/-- ASCII decimal digits of `n`, most significant first; `[]` for `n = 0`.
`fuel` is an upper bound on the recursion depth. -/
def decCharsAux : Nat → Nat → List Char
  | 0, _ => []
  | fuel + 1, n => if n = 0 then [] else decCharsAux fuel (n / 10) ++ [Nat.digitChar (n % 10)]

/-- ASCII decimal digits of `n`, most significant first; `[]` for `n = 0`. -/
def decChars (n : Nat) : List Char := decCharsAux (n + 1) n

/-- JS `Number.prototype.toString()` on a natural number. -/
def jsNumToString (n : Nat) : String :=
  if n = 0 then "0" else String.mk (decChars n)

/-- Value of a list of decimal digit characters (fold left, base 10). -/
def chVal (l : List Char) : Nat :=
  l.foldl (fun a c => 10 * a + (c.toNat - 48)) 0

/-! ## UTC date decomposition (ECMA-262 / `Date.prototype.toISOString`)

`new Date(t).toISOString()` decomposes the millisecond timestamp `t` into
calendar fields of the proleptic Gregorian calendar (UTC, no leap seconds)
and renders them zero-padded.  `civilFromDays` is the standard civil-from-days
algorithm for days since the Unix epoch (non-negative timestamps only, which
is all `Date.now()` produces). -/
/-- ECMA-262 `DayFromYear(y)` for `y ≥ 1970`: day count of 1 January of
year `y` since 1970-01-01. -/
def dayFromYear (y : Nat) : Nat :=
  365 * (y - 1970) + (y - 1969) / 4 - (y - 1901) / 100 + (y - 1601) / 400

/-- One step of ECMA-262 `YearFromTime`: the largest year `≥ y` whose first
day is at most `days`, found by upward search (fuel-bounded). -/
def yearFromDaysAux : Nat → Nat → Nat → Nat
  | 0, y, _ => y
  | fuel + 1, y, days =>
      if dayFromYear (y + 1) ≤ days then yearFromDaysAux fuel (y + 1) days else y

/-- ECMA-262 `YearFromTime`: the largest `y` with `dayFromYear y ≤ days`. -/
def yearFromDays (days : Nat) : Nat := yearFromDaysAux (days + 1) 1970 days

/-- ECMA-262 `InLeapYear`. -/
def inLeapYear (y : Nat) : Bool :=
  y % 4 = 0 && (y % 100 != 0 || y % 400 = 0)

/-- ECMA-262 `MonthFromTime` (1-based, as printed by `toISOString`) and
`DateFromTime`, from the day-within-year. -/
def monthDayFromDwy (leap : Bool) (dwy : Nat) : Nat × Nat :=
  let l := if leap then 1 else 0
  if dwy < 31 then (1, dwy + 1)
  else if dwy < 59 + l then (2, dwy - 30)
  else if dwy < 90 + l then (3, dwy - 58 - l)
  else if dwy < 120 + l then (4, dwy - 89 - l)
  else if dwy < 151 + l then (5, dwy - 119 - l)
  else if dwy < 181 + l then (6, dwy - 150 - l)
  else if dwy < 212 + l then (7, dwy - 180 - l)
  else if dwy < 243 + l then (8, dwy - 211 - l)
  else if dwy < 273 + l then (9, dwy - 242 - l)
  else if dwy < 304 + l then (10, dwy - 272 - l)
  else if dwy < 334 + l then (11, dwy - 303 - l)
  else (12, dwy - 333 - l)

/-- Gregorian `(year, month, day)` of a day count since 1970-01-01, per the
ECMA-262 date algorithms. -/
def civilFromDays (days : Nat) : Nat × Nat × Nat :=
  let y := yearFromDays days
  let md := monthDayFromDwy (inLeapYear y) (days - dayFromYear y)
  (y, md.1, md.2)

/-- Inverse of `monthDayFromDwy`: day-within-year of a (1-based) month/day. -/
def dwyFromMonthDay (leap : Bool) (m d : Nat) : Nat :=
  let l := if leap then 1 else 0
  (match m with
   | 1 => 0
   | 2 => 31
   | 3 => 59 + l
   | 4 => 90 + l
   | 5 => 120 + l
   | 6 => 151 + l
   | 7 => 181 + l
   | 8 => 212 + l
   | 9 => 243 + l
   | 10 => 273 + l
   | 11 => 304 + l
   | _ => 334 + l) + (d - 1)

/-! ## `toISOString` rendering and the recording path

`toISOString` renders `YYYY-MM-DDTHH:mm:ss.sssZ` with zero-padded decimal
fields; the recording output path then replaces every `:` and `.` of the
timestamp by a dash (the global colon-dot replace in the source). -/
/-- Decimal rendering of `n` zero-padded to width `w`. -/
def padc (w n : Nat) : List Char :=
  List.replicate (w - (decChars n).length) '0' ++ decChars n

def isoChars (t : Nat) : List Char :=
  let c := civilFromDays (t / 86400000)
  let r := t % 86400000
  padc 4 c.1 ++ '-' :: (padc 2 c.2.1 ++ '-' :: (padc 2 c.2.2 ++
    'T' :: (padc 2 (r / 3600000) ++ ':' :: (padc 2 (r % 3600000 / 60000) ++
    ':' :: (padc 2 (r % 60000 / 1000) ++ '.' :: (padc 3 (r % 1000) ++ ['Z']))))))

/-- JS `new Date(t).toISOString()` for a non-negative millisecond timestamp. -/
def toISOString (t : Nat) : String := String.mk (isoChars t)

/-- The global replacement of colons and dots by dashes. -/
def jsReplaceColonDot (s : String) : String :=
  String.mk (s.data.map (fun c => if c = ':' ∨ c = '.' then '-' else c))

/-- The timestamped recording output path appended to the encoder command. -/
def recordingPath (t : Nat) : String :=
  "/recordings/stream-" ++ jsReplaceColonDot (toISOString t) ++ ".flv"

/-! ## Telemetry parser (`parseFFmpegStats`)

The three regexes `bitrate=\s*([\d.]+)kbits\/s`, `fps=\s*(\d+)` and
`time=(\d+:\d+:\d+)` are embedded as leftmost-match scanners.  Greedy
matching of a character class followed by a literal outside the class needs
no backtracking, so maximal-munch scanning is exactly the regex semantics. -/
/-- JS `\d` (ASCII digits only). -/
def isDigitCh (c : Char) : Bool := '0' ≤ c && c ≤ '9'

/-- JS `\s` (the ASCII portion; the encoder output is ASCII). -/
def isJsSpace (c : Char) : Bool :=
  c = ' ' || c = '\t' || c = '\n' || c = '\r' || c = '\x0b' || c = '\x0c'

/-- Consume an exact literal prefix, returning the rest. -/
def dropLit : List Char → List Char → Option (List Char)
  | [], rest => some rest
  | _, [] => none
  | p :: ps, c :: cs => if c = p then dropLit ps cs else none

/-- Match `bitrate=\s*([\d.]+)kbits\/s` anchored at the head, returning the
captured group. -/
def matchBitrateAt (l : List Char) : Option (List Char) :=
  match dropLit "bitrate=".data l with
  | none => none
  | some r1 =>
      let r2 := r1.dropWhile isJsSpace
      let grp := r2.takeWhile (fun c => isDigitCh c || c = '.')
      let r3 := r2.dropWhile (fun c => isDigitCh c || c = '.')
      if grp.isEmpty then none
      else match dropLit "kbits/s".data r3 with
        | none => none
        | some _ => some grp

/-- Match `fps=\s*(\d+)` anchored at the head, returning the captured group. -/
def matchFpsAt (l : List Char) : Option (List Char) :=
  match dropLit "fps=".data l with
  | none => none
  | some r1 =>
      let r2 := r1.dropWhile isJsSpace
      let grp := r2.takeWhile isDigitCh
      if grp.isEmpty then none else some grp

/-- Match `time=(\d+:\d+:\d+)` anchored at the head, returning the captured
group. -/
def matchTimeAt (l : List Char) : Option (List Char) :=
  match dropLit "time=".data l with
  | none => none
  | some r1 =>
      let h := r1.takeWhile isDigitCh
      if h.isEmpty then none
      else match r1.dropWhile isDigitCh with
        | ':' :: r3 =>
            let m := r3.takeWhile isDigitCh
            if m.isEmpty then none
            else match r3.dropWhile isDigitCh with
              | ':' :: r5 =>
                  let s := r5.takeWhile isDigitCh
                  if s.isEmpty then none
                  else some (h ++ ':' :: (m ++ ':' :: s))
              | _ => none
        | _ => none

/-- Leftmost match: try the anchored matcher at each position, left to
right. -/
def searchAux (m : List Char → Option (List Char)) : List Char → Option (List Char)
  | [] => m []
  | c :: cs =>
      match m (c :: cs) with
      | some g => some g
      | none => searchAux m cs

/-- JS `parseFloat` on a string drawn from the class `[\d.]+`; `none` models
`NaN`. -/
def jsParseFloat (l : List Char) : Option ℚ :=
  let ip := l.takeWhile isDigitCh
  match l.dropWhile isDigitCh with
  | '.' :: r2 =>
      let fp := r2.takeWhile isDigitCh
      if ip.isEmpty && fp.isEmpty then none
      else some ((chVal ip : ℚ) + (chVal fp : ℚ) / (10 : ℚ) ^ fp.length)
  | _ => if ip.isEmpty then none else some ((chVal ip : ℚ))

/-- A parsed stats record.  `bitrate` is a JS number (`none` models `NaN`,
which `parseFloat` can produce on a pathological group such as `"."`). -/
structure FFStats where
  bitrate : Option ℚ
  fps : Nat
  time : String
  deriving DecidableEq

/-- The function `parseFFmpegStats` from the source: returns `null` unless at least one
of the bitrate/fps patterns matches; missing fields default to `0` and
`"00:00:00"`. -/
def parseFFmpegStats (output : String) : Option FFStats :=
  let bitrateMatch := searchAux matchBitrateAt output.data
  let fpsMatch := searchAux matchFpsAt output.data
  let timeMatch := searchAux matchTimeAt output.data
  if bitrateMatch.isSome || fpsMatch.isSome then
    some { bitrate := match bitrateMatch with
             | some g => jsParseFloat g
             | none => some 0
           fps := match fpsMatch with
             | some g => chVal g
             | none => 0
           time := match timeMatch with
             | some g => String.mk g
             | none => "00:00:00" }
  else none

/-! ## Encoder command construction (`/stream/start`, lines 106–134) -/
structure Destination where
  enabled : Bool
  rtmpUrl : Option String
  streamKey : Option String
  deriving DecidableEq

structure Settings where
  preset : Option String
  videoBitrate : Option Nat
  resolution : Option String
  framerate : Option Nat
  audioBitrate : Option Nat
  recording : Option Bool
  deriving DecidableEq

/-- The JS `{}` settings object: every field reads as `undefined`. -/
def emptySettings : Settings := ⟨none, none, none, none, none, none⟩

/-- Contribution of one destination to the command
(`dest.enabled && dest.rtmpUrl && dest.streamKey` guard). -/
def destSegment (dest : Destination) : String :=
  if dest.enabled && strTruthy dest.rtmpUrl && strTruthy dest.streamKey then
    "-f flv \"" ++ dest.rtmpUrl.getD "" ++ "/" ++ dest.streamKey.getD "" ++ "\" "
  else ""

/-- The recording output appended when `settings.recording` is truthy. -/
def recordingSegment (settings : Settings) (now : Nat) : String :=
  if boolTruthy settings.recording then
    "-f flv \"" ++ recordingPath now ++ "\""
  else ""

/-- The list of recording output paths of one invocation (the spec field "output
target list", recording members). -/
def recordingOutputs (settings : Settings) (now : Nat) : List String :=
  if boolTruthy settings.recording then [recordingPath now] else []

/-- Everything the handler appends to `cmd` before the recording output:
source input, video/audio encoding parameters, and one output per enabled
destination. -/
def cmdHeader (sourceUrl : String) (destinations : List Destination)
    (settings : Settings) : String :=
  "ffmpeg -re -i \"" ++ sourceUrl ++ "\" " ++
  "-c:v libx264 -preset " ++ jsOrStr settings.preset "veryfast" ++ " " ++
  "-b:v " ++ jsNumToString (jsOrNat settings.videoBitrate 2500) ++ "k " ++
  "-maxrate " ++ jsNumToString (jsOrNat settings.videoBitrate 2500) ++ "k " ++
  "-bufsize " ++ jsNumToString (jsOrNat settings.videoBitrate 2500 * 2) ++ "k " ++
  "-s " ++ jsOrStr settings.resolution "1280x720" ++ " " ++
  "-r " ++ jsNumToString (jsOrNat settings.framerate 30) ++ " " ++
  "-g " ++ jsNumToString (jsOrNat settings.framerate 30 * 2) ++ " " ++
  "-c:a aac -b:a " ++ jsNumToString (jsOrNat settings.audioBitrate 128) ++ "k " ++
  "-ar 44100 -ac 2 " ++
  String.join (destinations.map destSegment)

/-- The full FFmpeg command string built by the start handler. -/
def buildCmd (sourceUrl : String) (destinations : List Destination)
    (settings : Settings) (now : Nat) : String :=
  cmdHeader sourceUrl destinations settings ++
  recordingSegment settings now ++
  " -loglevel verbose 2>&1"

/-! ## Server state machine

The mutable server consists of the `activeStreams` map, the log of events
pushed through `broadcastUpdate`, and a table of the spawned encoder
processes (`exec` handles).  Request handlers are functions of this state;
the asynchronous `exec`-completion callback and `stdout` data events are
separate transitions. -/
inductive EventType
  | stream_stats
  | stream_error
  | stream_stopped
  deriving DecidableEq

structure Event where
  type : EventType
  streamId : String
  deriving DecidableEq

structure SessionInfo where
  status : String
  startTime : Nat
  destinations : List Destination
  process : Option Nat
  settings : Settings
  deriving DecidableEq

structure ProcEntry where
  streamId : String
  cmd : String
  alive : Bool
  kills : Nat
  deriving DecidableEq

structure ServerState where
  activeStreams : List (String × SessionInfo)
  events : List Event
  procs : List ProcEntry
  deriving DecidableEq

def initState : ServerState := ⟨[], [], []⟩

structure StartBody where
  sourceUrl : Option String
  destinations : Option (List Destination)
  settings : Option Settings

inductive JsError
  | typeError
  deriving DecidableEq

structure StartResp where
  status : Nat
  success : Bool
  streamId : Option String
  deriving DecidableEq

structure StopResp where
  status : Nat
  success : Bool
  deriving DecidableEq

/-- The validation check `!sourceUrl || !destinations || destinations.length === 0`. -/
def startInvalid (body : StartBody) : Bool :=
  !strTruthy body.sourceUrl || body.destinations.isNone ||
    (body.destinations.getD []).isEmpty

/-- The `/stream/start` handler.  Reading `settings.preset` when `settings`
is `undefined` throws a `TypeError` (modelled as `.error`), before any state
change. -/
def startHandler (body : StartBody) (now : Nat) (st : ServerState) :
    Except JsError (StartResp × ServerState) :=
  let streamId := jsNumToString now
  if startInvalid body then
    .ok (⟨400, false, none⟩, st)
  else
    match body.settings with
    | none => .error .typeError
    | some settings =>
        let sourceUrl := body.sourceUrl.getD ""
        let destinations := body.destinations.getD []
        let cmd := buildCmd sourceUrl destinations settings now
        let info : SessionInfo :=
          { status := "active", startTime := now, destinations := destinations,
            process := some st.procs.length, settings := settings }
        .ok (⟨200, true, some streamId⟩,
          { activeStreams := jsMapSet st.activeStreams streamId info,
            events := st.events,
            procs := st.procs ++ [⟨streamId, cmd, true, 0⟩] })

/-- The kill call with SIGTERM: one termination signal to process table
entry `i`. -/
def killAt (procs : List ProcEntry) (i : Nat) : List ProcEntry :=
  match procs[i]? with
  | some p => procs.set i { p with kills := p.kills + 1 }
  | none => procs

/-- The `/stream/stop` handler: 404 when the id is not in the map;
otherwise kill, delete, broadcast `stream_stopped`. -/
def stopHandler (sid : String) (st : ServerState) :
    Except JsError (StopResp × ServerState) :=
  if !jsMapHas st.activeStreams sid then
    .ok (⟨404, false⟩, st)
  else
    match jsMapGet st.activeStreams sid with
    | none => .error .typeError
    | some info =>
        match info.process with
        | none => .error .typeError
        | some pidx =>
            .ok (⟨200, true⟩,
              { activeStreams := jsMapDelete st.activeStreams sid,
                events := st.events ++ [⟨.stream_stopped, sid⟩],
                procs := killAt st.procs pidx })

/-- Does the completion callback of `exec` take the error branch?
`error` is non-null iff the process exited nonzero (`error.code = code`) or
was terminated by a signal (`error.code = null`); the branch condition is
`error && error.code !== 0`. -/
def exitErrorFires (code : Option Int) : Bool :=
  match code with
  | some 0 => false
  | some _ => true
  | none => true

/-- The `exec` completion callback for process-table entry `i`:
on the error branch, delete the session and broadcast `stream_error`.
`code = none` models termination by signal (e.g. after a SIGTERM kill). -/
def execCallback (i : Nat) (code : Option Int) (st : ServerState) : ServerState :=
  match st.procs[i]? with
  | none => st
  | some p =>
      let st1 : ServerState :=
        { st with procs := st.procs.set i { p with alive := false } }
      if exitErrorFires code then
        { st1 with
          activeStreams := jsMapDelete st1.activeStreams p.streamId,
          events := st1.events ++ [⟨.stream_error, p.streamId⟩] }
      else st1

/-- The stdout data handler for process-table entry `i`:
parse the chunk and broadcast `stream_stats` when stats are present. -/
def stdoutData (i : Nat) (chunk : String) (st : ServerState) : ServerState :=
  match st.procs[i]? with
  | none => st
  | some p =>
      match parseFFmpegStats chunk with
      | some _ => { st with events := st.events ++ [⟨.stream_stats, p.streamId⟩] }
      | none => st

/-- One asynchronous step of the server: a request handled, a process
exiting (at most once, while alive), or a chunk of encoder output (only
while the process runs). -/
inductive Step : ServerState → ServerState → Prop
  | start (body : StartBody) (now : Nat) (resp : StartResp) (st st' : ServerState) :
      startHandler body now st = .ok (resp, st') → Step st st'
  | stop (sid : String) (resp : StopResp) (st st' : ServerState) :
      stopHandler sid st = .ok (resp, st') → Step st st'
  | procExit (i : Nat) (code : Option Int) (st : ServerState) (p : ProcEntry) :
      st.procs[i]? = some p → p.alive = true → Step st (execCallback i code st)
  | procOutput (i : Nat) (chunk : String) (st : ServerState) (p : ProcEntry) :
      st.procs[i]? = some p → p.alive = true → Step st (stdoutData i chunk st)

/-- Server states reachable from boot. -/
inductive Reachable : ServerState → Prop
  | init : Reachable initState
  | step {st st' : ServerState} : Reachable st → Step st st' → Reachable st'

/-! ## `/extract-stream` (lines 38–93)

The handler spawns the resolver with a 25 s timeout and also arms a safety
timer; either the `exec` callback or the timer produces the response.  The
response channel delivers at most one response per request: a second
`res.json` throws `ERR_HTTP_HEADERS_SENT` and delivers nothing, which
the first-write-wins of `sendResp` models; the send by the timer is additionally
guarded by `res.headersSent`. -/
structure ExtractResp where
  status : Nat
  success : Bool
  message : Option String
  stream_url : Option String
  original_url : Option String
  deriving DecidableEq

/-- Outcome of the resolver process observed by the `exec` callback. -/
inductive ExecResult
  | execErr (msg : String)
  | done (stdout : String)

/-- JS `String.prototype.trim` (ASCII whitespace). -/
def jsTrim (s : String) : String :=
  String.mk (((s.data.dropWhile isJsSpace).reverse.dropWhile isJsSpace).reverse)

/-- JS `String.prototype.includes`. -/
def containsSub : List Char → List Char → Bool
  | [], pat => pat.isEmpty
  | l@(_ :: cs), pat => pat.isPrefixOf l || containsSub cs pat

/-- The response the `exec` callback sends (lines 52–77). -/
def callbackResp (url : String) (r : ExecResult) : ExtractResp :=
  match r with
  | .execErr m => ⟨200, false, some ("Extraction failed: " ++ m), none, none⟩
  | .done out =>
      let streamUrl := jsTrim out
      if streamUrl == "" || containsSub streamUrl.data "ERROR".data then
        ⟨200, false, some "No stream found for this URL", none, none⟩
      else
        ⟨200, true, none, some streamUrl, some url⟩

def timeoutResp : ExtractResp :=
  ⟨200, false, some "Extraction timeout (25s limit)", none, none⟩

def urlRequiredResp : ExtractResp :=
  ⟨200, false, some "URL required", none, none⟩

/-- First write wins on the HTTP response channel. -/
def sendResp (ch : Option ExtractResp) (r : ExtractResp) : Option ExtractResp :=
  match ch with
  | none => some r
  | some r0 => some r0

/-- Relative order of the resolver completion callback and the safety
timer for one request. -/
inductive ExtractTiming
  | finishesWithinBudget
  | timeoutThenCallback
  | callbackThenTimeout

/-- The `/extract-stream` handler over one request, for every possible
interleaving of the two response paths. -/
def extractHandler (url : Option String) (r : ExecResult)
    (timing : ExtractTiming) : Option ExtractResp :=
  if !strTruthy url then sendResp none urlRequiredResp
  else
    let u := url.getD ""
    match timing with
    | .finishesWithinBudget => sendResp none (callbackResp u r)
    | .timeoutThenCallback =>
        let ch := sendResp none timeoutResp
        sendResp ch (callbackResp u r)
    | .callbackThenTimeout =>
        let ch := sendResp none (callbackResp u r)
        if ch.isSome then ch else sendResp ch timeoutResp

/-! ## The registry invariant (reachable states) -/
/-- Every registered session is `active` and holds a handle to an entry of
the process table. -/
def RegistryInv (st : ServerState) : Prop :=
  ∀ sid info, (sid, info) ∈ st.activeStreams →
    info.status = "active" ∧ ∃ i, info.process = some i ∧ i < st.procs.length

/-! ## Concrete demonstration runs -/
def demoDest : Destination := ⟨true, some "rtmp://a", some "k1"⟩

def demoBody : StartBody := ⟨some "rtsp://src", some [demoDest], some emptySettings⟩

/-- State after `startHandler demoBody 1000 initState`. -/
def demoStarted : ServerState :=
  match startHandler demoBody 1000 initState with
  | .ok (_, st) => st
  | .error _ => initState

/-- State after stopping stream `"1000"` in `demoStarted`. -/
def demoStopped : ServerState :=
  match stopHandler "1000" demoStarted with
  | .ok (_, st) => st
  | .error _ => demoStarted

/-- State after a second `startHandler demoBody 1000` (same millisecond). -/
def demoStarted2 : ServerState :=
  match startHandler demoBody 1000 demoStarted with
  | .ok (_, st) => st
  | .error _ => demoStarted

def recSettings : Settings := ⟨none, none, none, none, none, some true⟩

def recBody : StartBody := ⟨some "rtsp://src", some [demoDest], some recSettings⟩

def recStarted1 : ServerState :=
  match startHandler recBody 1000 initState with
  | .ok (_, st) => st
  | .error _ => initState

def recStarted2 : ServerState :=
  match startHandler recBody 1000 recStarted1 with
  | .ok (_, st) => st
  | .error _ => recStarted1

/-- A request whose one destination is disabled (`enabled:false`). -/
def disabledBody : StartBody :=
  ⟨some "rtsp://src", some [⟨false, some "rtmp://a", some "k1"⟩], some emptySettings⟩

theorem decCharsAux_succ (f n : Nat) :
    decCharsAux (f + 1) n =
      if n = 0 then [] else decCharsAux f (n / 10) ++ [Nat.digitChar (n % 10)] := rfl

theorem decCharsAux_fuel_irrel (n : Nat) : ∀ f g : Nat, n < f → n < g →
    decCharsAux f n = decCharsAux g n := by
  induction n using Nat.strong_induction_on with
  | _ n ih =>
    intro f g hf hg
    match f, g with
    | f' + 1, g' + 1 =>
      rw [decCharsAux_succ, decCharsAux_succ]
      by_cases h0 : n = 0
      · simp [h0]
      · simp only [h0, if_false]
        have hdiv : n / 10 < n := Nat.div_lt_self (Nat.pos_of_ne_zero h0) (by omega)
        have h1 : n / 10 < f' := by omega
        have h2 : n / 10 < g' := by omega
        rw [ih (n / 10) hdiv f' g' h1 h2]

theorem decChars_succ (n : Nat) (h : n ≠ 0) :
    decChars n = decChars (n / 10) ++ [Nat.digitChar (n % 10)] := by
  have hdiv : n / 10 < n := Nat.div_lt_self (Nat.pos_of_ne_zero h) (by omega)
  show decCharsAux (n + 1) n = _
  rw [decCharsAux_succ, if_neg h,
    decCharsAux_fuel_irrel (n / 10) n (n / 10 + 1) (by omega) (by omega)]
  rfl

theorem digitChar_toNat (d : Nat) (h : d < 10) : (Nat.digitChar d).toNat = d + 48 := by
  interval_cases d <;> decide

theorem chVal_append_digit (l : List Char) (c : Char) :
    chVal (l ++ [c]) = 10 * chVal l + (c.toNat - 48) := by
  simp [chVal, List.foldl_append]

theorem chVal_decChars (n : Nat) : chVal (decChars n) = n := by
  induction n using Nat.strong_induction_on with
  | _ n ih =>
    by_cases h0 : n = 0
    · subst h0; decide
    · rw [decChars_succ n h0, chVal_append_digit]
      have hdiv : n / 10 < n := Nat.div_lt_self (Nat.pos_of_ne_zero h0) (by omega)
      rw [ih (n / 10) hdiv, digitChar_toNat (n % 10) (Nat.mod_lt n (by omega))]
      omega

theorem jsNumToString_injective (a b : Nat) (h : jsNumToString a = jsNumToString b) :
    a = b := by
  have hval : ∀ n : Nat, chVal (jsNumToString n).data = n := by
    intro n
    by_cases h0 : n = 0
    · subst h0; decide
    · simp only [jsNumToString, h0, if_false]
      exact chVal_decChars n
  have := hval a
  rw [h, hval b] at this
  omega

/-! ### Correctness of the date decomposition -/
theorem dayFromYear_succ_ge (y : Nat) (h : 1970 ≤ y) :
    dayFromYear y + 365 ≤ dayFromYear (y + 1) := by
  simp only [dayFromYear]
  omega

theorem dayFromYear_mono_ge (y k : Nat) (h : 1970 ≤ y) :
    dayFromYear y + 365 * k ≤ dayFromYear (y + k) := by
  induction k with
  | zero => simp
  | succ k ih =>
      have := dayFromYear_succ_ge (y + k) (by omega)
      have he : y + (k + 1) = (y + k) + 1 := by omega
      rw [he]
      omega

theorem yearFromDaysAux_spec (fuel : Nat) : ∀ y days : Nat,
    dayFromYear y ≤ days → days < dayFromYear (y + fuel) →
    dayFromYear (yearFromDaysAux fuel y days) ≤ days ∧
      days < dayFromYear (yearFromDaysAux fuel y days + 1) := by
  induction fuel with
  | zero =>
      intro y days h1 h2
      simp only [Nat.add_zero] at h2
      omega
  | succ fuel ih =>
      intro y days h1 h2
      simp only [yearFromDaysAux]
      by_cases hc : dayFromYear (y + 1) ≤ days
      · rw [if_pos hc]
        refine ih (y + 1) days hc ?_
        have he : y + 1 + fuel = y + (fuel + 1) := by omega
        rw [he]
        exact h2
      · rw [if_neg hc]
        omega

theorem yearFromDaysAux_ge (fuel : Nat) : ∀ y days : Nat,
    y ≤ yearFromDaysAux fuel y days := by
  induction fuel with
  | zero => intro y days; simp [yearFromDaysAux]
  | succ fuel ih =>
      intro y days
      simp only [yearFromDaysAux]
      by_cases hc : dayFromYear (y + 1) ≤ days
      · rw [if_pos hc]
        have := ih (y + 1) days
        omega
      · rw [if_neg hc]

theorem yearFromDays_ge (days : Nat) : 1970 ≤ yearFromDays days :=
  yearFromDaysAux_ge (days + 1) 1970 days

theorem yearFromDays_spec (days : Nat) :
    dayFromYear (yearFromDays days) ≤ days ∧
      days < dayFromYear (yearFromDays days + 1) := by
  apply yearFromDaysAux_spec (days + 1) 1970 days
  · show dayFromYear 1970 ≤ days
    have h0 : dayFromYear 1970 = 0 := rfl
    omega
  · have := dayFromYear_mono_ge 1970 (days + 1) (by omega)
    have h0 : dayFromYear 1970 = 0 := rfl
    omega

set_option maxHeartbeats 800000 in
theorem dayFromYear_succ_eq (y : Nat) (h : 1970 ≤ y) :
    dayFromYear (y + 1) =
      dayFromYear y + (if inLeapYear y then 366 else 365) := by
  have hl : (inLeapYear y = true) ↔ (y % 4 = 0 ∧ (y % 100 ≠ 0 ∨ y % 400 = 0)) := by
    simp [inLeapYear]
  by_cases hc : inLeapYear y
  · rw [if_pos hc]
    rw [hl] at hc
    simp only [dayFromYear]
    omega
  · rw [if_neg hc]
    have hc' : ¬(y % 4 = 0 ∧ (y % 100 ≠ 0 ∨ y % 400 = 0)) := by
      intro hx; exact hc (hl.mpr hx)
    by_cases h4 : y % 4 = 0
    · by_cases h100 : y % 100 = 0
      · have h400 : y % 400 ≠ 0 := by
          intro hx; exact hc' ⟨h4, Or.inr hx⟩
        simp only [dayFromYear]
        omega
      · exact absurd ⟨h4, Or.inl h100⟩ hc'
    · simp only [dayFromYear]
      omega

set_option maxHeartbeats 2000000 in
set_option maxRecDepth 10000 in
theorem monthDay_roundtrip (leap : Bool) (dwy : Nat)
    (h : dwy < 365 + (if leap then 1 else 0)) :
    dwyFromMonthDay leap (monthDayFromDwy leap dwy).1
      (monthDayFromDwy leap dwy).2 = dwy := by
  cases leap
  · have hall : ∀ w : Nat, w < 365 →
        dwyFromMonthDay false (monthDayFromDwy false w).1
          (monthDayFromDwy false w).2 = w := by decide
    exact hall dwy (by simpa using h)
  · have hall : ∀ w : Nat, w < 366 →
        dwyFromMonthDay true (monthDayFromDwy true w).1
          (monthDayFromDwy true w).2 = w := by decide
    exact hall dwy (by simpa using h)

set_option maxHeartbeats 2000000 in
set_option maxRecDepth 10000 in
theorem monthDay_bounds (leap : Bool) (dwy : Nat)
    (h : dwy < 365 + (if leap then 1 else 0)) :
    1 ≤ (monthDayFromDwy leap dwy).1 ∧ (monthDayFromDwy leap dwy).1 ≤ 12 ∧
      1 ≤ (monthDayFromDwy leap dwy).2 ∧ (monthDayFromDwy leap dwy).2 ≤ 31 := by
  cases leap
  · have hall : ∀ w : Nat, w < 365 →
        1 ≤ (monthDayFromDwy false w).1 ∧ (monthDayFromDwy false w).1 ≤ 12 ∧
          1 ≤ (monthDayFromDwy false w).2 ∧ (monthDayFromDwy false w).2 ≤ 31 := by
      decide
    exact hall dwy (by simpa using h)
  · have hall : ∀ w : Nat, w < 366 →
        1 ≤ (monthDayFromDwy true w).1 ∧ (monthDayFromDwy true w).1 ≤ 12 ∧
          1 ≤ (monthDayFromDwy true w).2 ∧ (monthDayFromDwy true w).2 ≤ 31 := by
      decide
    exact hall dwy (by simpa using h)

theorem dwy_lt (days : Nat) :
    days - dayFromYear (yearFromDays days) <
      365 + (if inLeapYear (yearFromDays days) then 1 else 0) := by
  obtain ⟨h1, h2⟩ := yearFromDays_spec days
  have hsucc := dayFromYear_succ_eq (yearFromDays days) (yearFromDays_ge days)
  by_cases hc : inLeapYear (yearFromDays days) <;> simp [hc] at hsucc ⊢ <;> omega

/-- The complete day-count decomposition is injective. -/
theorem civilFromDays_injective (d1 d2 : Nat)
    (h : civilFromDays d1 = civilFromDays d2) : d1 = d2 := by
  obtain ⟨ha1, ha2⟩ := yearFromDays_spec d1
  obtain ⟨hb1, hb2⟩ := yearFromDays_spec d2
  have hy : yearFromDays d1 = yearFromDays d2 := congrArg Prod.fst h
  have hdwy1 := dwy_lt d1
  have hdwy2 := dwy_lt d2
  have hmd : monthDayFromDwy (inLeapYear (yearFromDays d1))
        (d1 - dayFromYear (yearFromDays d1)) =
      monthDayFromDwy (inLeapYear (yearFromDays d2))
        (d2 - dayFromYear (yearFromDays d2)) := by
    have h1 := congrArg (fun p => p.2.1) h
    have h2 := congrArg (fun p => p.2.2) h
    simp only [civilFromDays] at h1 h2
    exact Prod.ext h1 h2
  rw [← hy] at hmd hb1 hdwy2
  have hr1 := monthDay_roundtrip (inLeapYear (yearFromDays d1))
    (d1 - dayFromYear (yearFromDays d1)) hdwy1
  have hr2 := monthDay_roundtrip (inLeapYear (yearFromDays d1))
    (d2 - dayFromYear (yearFromDays d1)) hdwy2
  rw [hmd, hr2] at hr1
  omega

/-- Year bound: timestamps below 10000-01-01 decompose to a four-digit year. -/
theorem yearFromDays_le (days : Nat) (h : days ≤ 2932896) :
    yearFromDays days ≤ 9999 := by
  obtain ⟨h1, h2⟩ := yearFromDays_spec days
  by_contra hgt
  have h10000 : dayFromYear 10000 = 2932897 := rfl
  have := dayFromYear_mono_ge 10000 (yearFromDays days - 10000) (by omega)
  have he : 10000 + (yearFromDays days - 10000) = yearFromDays days := by omega
  rw [he] at this
  omega

/-! ### Injectivity of the recording path in the timestamp -/
theorem chVal_replicate_zero (k : Nat) (l : List Char) :
    chVal (List.replicate k '0' ++ l) = chVal l := by
  induction k with
  | zero => rfl
  | succ k ih => simpa [chVal, List.replicate_succ] using ih

theorem chVal_padc (w n : Nat) : chVal (padc w n) = n := by
  rw [padc, chVal_replicate_zero, chVal_decChars]

theorem length_decChars_le (w : Nat) : ∀ n : Nat, n < 10 ^ w →
    (decChars n).length ≤ w := by
  induction w with
  | zero =>
      intro n h
      have : n = 0 := by omega
      subst this
      decide
  | succ w ih =>
      intro n h
      by_cases h0 : n = 0
      · subst h0; simp [decChars, decCharsAux]
      · rw [decChars_succ n h0]
        have hdiv : n / 10 < 10 ^ w := by
          have := Nat.pow_succ 10 w
          omega
        have := ih (n / 10) hdiv
        simp only [List.length_append, List.length_singleton]
        omega

theorem length_padc (w n : Nat) (h : n < 10 ^ w) : (padc w n).length = w := by
  have := length_decChars_le w n h
  simp only [padc, List.length_append, List.length_replicate]
  omega

theorem mem_decChars_digit (n : Nat) : ∀ c ∈ decChars n, ∃ d, d < 10 ∧ c = Nat.digitChar d := by
  induction n using Nat.strong_induction_on with
  | _ n ih =>
    intro c hc
    by_cases h0 : n = 0
    · subst h0; simp [decChars, decCharsAux] at hc
    · rw [decChars_succ n h0] at hc
      rcases List.mem_append.mp hc with h | h
      · exact ih (n / 10) (Nat.div_lt_self (Nat.pos_of_ne_zero h0) (by omega)) c h
      · refine ⟨n % 10, Nat.mod_lt n (by omega), ?_⟩
        simpa using h

theorem padc_no_colon_dot (w n : Nat) :
    ∀ c ∈ padc w n, ¬(c = ':' ∨ c = '.') := by
  intro c hc
  rcases List.mem_append.mp hc with h | h
  · have : c = '0' := List.eq_of_mem_replicate h
    subst this; decide
  · obtain ⟨d, hd, rfl⟩ := mem_decChars_digit n c h
    interval_cases d <;> decide

theorem map_replace_padc (w n : Nat) :
    (padc w n).map (fun c => if c = ':' ∨ c = '.' then '-' else c) = padc w n := by
  conv_rhs => rw [← List.map_id (padc w n)]
  apply List.map_congr_left
  intro a ha
  simp [padc_no_colon_dot w n a ha]

/-- The `[:.]→-` replacement of the ISO timestamp, as an explicit
concatenation of padded fields. -/
theorem isoChars_replace_eq (t : Nat) :
    (isoChars t).map (fun c => if c = ':' ∨ c = '.' then '-' else c) =
      padc 4 (civilFromDays (t / 86400000)).1 ++
      '-' :: (padc 2 (civilFromDays (t / 86400000)).2.1 ++
      '-' :: (padc 2 (civilFromDays (t / 86400000)).2.2 ++
      'T' :: (padc 2 (t % 86400000 / 3600000) ++
      '-' :: (padc 2 (t % 86400000 % 3600000 / 60000) ++
      '-' :: (padc 2 (t % 86400000 % 60000 / 1000) ++
      '-' :: (padc 3 (t % 86400000 % 1000) ++ ['Z'])))))) := by
  simp only [isoChars, List.map_append, List.map_cons, List.map_nil, map_replace_padc]
  norm_num
  decide

theorem padc_chop (w a b : Nat) (r1 r2 : List Char) (ha : a < 10 ^ w)
    (hb : b < 10 ^ w) (h : padc w a ++ r1 = padc w b ++ r2) :
    a = b ∧ r1 = r2 := by
  obtain ⟨hp, hr⟩ :=
    List.append_inj h (by rw [length_padc w a ha, length_padc w b hb])
  refine ⟨?_, hr⟩
  have := congrArg chVal hp
  rwa [chVal_padc, chVal_padc] at this

/-- Components of the timestamp rendered into the recording path, with the
bounds that make every field render at its fixed width. -/
theorem iso_component_bounds (t : Nat) (h : t < 253402300800000) :
    (civilFromDays (t / 86400000)).1 < 10 ^ 4 ∧
    (civilFromDays (t / 86400000)).2.1 < 10 ^ 2 ∧
    (civilFromDays (t / 86400000)).2.2 < 10 ^ 2 ∧
    t % 86400000 / 3600000 < 10 ^ 2 ∧
    t % 86400000 % 3600000 / 60000 < 10 ^ 2 ∧
    t % 86400000 % 60000 / 1000 < 10 ^ 2 ∧
    t % 86400000 % 1000 < 10 ^ 3 := by
  have hdays : t / 86400000 ≤ 2932896 := by omega
  have hy := yearFromDays_le (t / 86400000) hdays
  have hmd := monthDay_bounds (inLeapYear (yearFromDays (t / 86400000)))
    (t / 86400000 - dayFromYear (yearFromDays (t / 86400000))) (dwy_lt (t / 86400000))
  refine ⟨by simpa [civilFromDays] using by omega, ?_, ?_, by omega, by omega, by omega, by omega⟩
  · show (civilFromDays (t / 86400000)).2.1 < 100
    simp only [civilFromDays]
    omega
  · show (civilFromDays (t / 86400000)).2.2 < 100
    simp only [civilFromDays]
    omega

/-- Distinct millisecond timestamps (below year 10000) give distinct
recording paths. -/
theorem recordingPath_inj (t1 t2 : Nat) (h1 : t1 < 253402300800000)
    (h2 : t2 < 253402300800000) (heq : recordingPath t1 = recordingPath t2) :
    t1 = t2 := by
  obtain ⟨ha1, ha2, ha3, ha4, ha5, ha6, ha7⟩ := iso_component_bounds t1 h1
  obtain ⟨hb1, hb2, hb3, hb4, hb5, hb6, hb7⟩ := iso_component_bounds t2 h2
  have hdata := congrArg String.data heq
  simp only [recordingPath, String.data_append, jsReplaceColonDot, toISOString,
    List.append_assoc] at hdata
  have hmid := List.append_cancel_left hdata
  have hmap : (isoChars t1).map (fun c => if c = ':' ∨ c = '.' then '-' else c) =
      (isoChars t2).map (fun c => if c = ':' ∨ c = '.' then '-' else c) := by
    have hlen : ((isoChars t1).map
        (fun c => if c = ':' ∨ c = '.' then '-' else c)).length =
        ((isoChars t2).map (fun c => if c = ':' ∨ c = '.' then '-' else c)).length := by
      rw [isoChars_replace_eq t1, isoChars_replace_eq t2]
      simp only [List.length_append, List.length_cons]
      rw [length_padc 4 _ ha1, length_padc 4 _ hb1, length_padc 2 _ ha2,
        length_padc 2 _ hb2, length_padc 2 _ ha3, length_padc 2 _ hb3,
        length_padc 2 _ ha4, length_padc 2 _ hb4, length_padc 2 _ ha5,
        length_padc 2 _ hb5, length_padc 2 _ ha6, length_padc 2 _ hb6,
        length_padc 3 _ ha7, length_padc 3 _ hb7]
    exact (List.append_inj hmid hlen).1
  rw [isoChars_replace_eq t1, isoChars_replace_eq t2] at hmap
  obtain ⟨hy, hrest⟩ := padc_chop 4 _ _ _ _ ha1 hb1 hmap
  rw [List.cons.injEq] at hrest
  obtain ⟨hmo, hrest⟩ := padc_chop 2 _ _ _ _ ha2 hb2 hrest.2
  rw [List.cons.injEq] at hrest
  obtain ⟨hd, hrest⟩ := padc_chop 2 _ _ _ _ ha3 hb3 hrest.2
  rw [List.cons.injEq] at hrest
  obtain ⟨hh, hrest⟩ := padc_chop 2 _ _ _ _ ha4 hb4 hrest.2
  rw [List.cons.injEq] at hrest
  obtain ⟨hmi, hrest⟩ := padc_chop 2 _ _ _ _ ha5 hb5 hrest.2
  rw [List.cons.injEq] at hrest
  obtain ⟨hs, hrest⟩ := padc_chop 2 _ _ _ _ ha6 hb6 hrest.2
  rw [List.cons.injEq] at hrest
  obtain ⟨hms, _⟩ := padc_chop 3 _ _ _ _ ha7 hb7 hrest.2
  have hdays : t1 / 86400000 = t2 / 86400000 := by
    apply civilFromDays_injective
    have e1 : civilFromDays (t1 / 86400000) =
        ((civilFromDays (t1 / 86400000)).1, (civilFromDays (t1 / 86400000)).2.1,
          (civilFromDays (t1 / 86400000)).2.2) := rfl
    have e2 : civilFromDays (t2 / 86400000) =
        ((civilFromDays (t2 / 86400000)).1, (civilFromDays (t2 / 86400000)).2.1,
          (civilFromDays (t2 / 86400000)).2.2) := rfl
    rw [e1, e2, hy, hmo, hd]
  omega

/-! ## Association-list lemmas for the JS `Map` -/
theorem jsMapGet_isSome_of_has {V : Type} (m : List (String × V)) (k : String)
    (h : jsMapHas m k = true) : ∃ v, jsMapGet m k = some v := by
  induction m with
  | nil => simp [jsMapHas] at h
  | cons p m ih =>
      by_cases hp : p.1 == k
      · exact ⟨p.2, by simp [jsMapGet, List.find?, hp]⟩
      · have h' : jsMapHas m k = true := by
          simpa [jsMapHas, hp] using h
        obtain ⟨v, hv⟩ := ih h'
        exact ⟨v, by simpa [jsMapGet, List.find?, hp] using hv⟩

theorem jsMapGet_mem {V : Type} (m : List (String × V)) (k : String) (v : V)
    (h : jsMapGet m k = some v) : (k, v) ∈ m := by
  induction m with
  | nil => simp [jsMapGet] at h
  | cons p m ih =>
      by_cases hp : p.1 == k
      · simp only [jsMapGet, List.find?, hp] at h
        have hk : p.1 = k := by simpa using hp
        have hpv : p = (k, v) := by
          cases p
          simp_all
        simp [hpv]
      · simp only [jsMapGet, List.find?, hp] at h
        exact List.mem_cons_of_mem p (ih h)

theorem mem_jsMapSet {V : Type} (m : List (String × V)) (k : String) (v : V)
    (sid : String) (info : V) (h : (sid, info) ∈ jsMapSet m k v) :
    (sid, info) ∈ m ∨ (sid, info) = (k, v) := by
  simp only [jsMapSet] at h
  by_cases hc : jsMapHas m k = true
  · rw [if_pos hc] at h
    obtain ⟨p, hp, he⟩ := List.mem_map.mp h
    by_cases hpk : p.1 == k
    · right; rw [if_pos hpk] at he; exact he.symm
    · left; rw [if_neg hpk] at he; rwa [he] at hp
  · rw [if_neg hc] at h
    rcases List.mem_append.mp h with h | h
    · exact Or.inl h
    · exact Or.inr (List.mem_singleton.mp h)

theorem mem_jsMapDelete {V : Type} (m : List (String × V)) (k : String)
    (sid : String) (info : V) (h : (sid, info) ∈ jsMapDelete m k) :
    (sid, info) ∈ m :=
  List.mem_of_mem_filter h

theorem jsMapHas_delete {V : Type} (m : List (String × V)) (k : String) :
    jsMapHas (jsMapDelete m k) k = false := by
  induction m with
  | nil => rfl
  | cons p m ih =>
      by_cases hp : p.1 == k
      · simpa [jsMapDelete, List.filter, hp] using ih
      · simpa [jsMapDelete, jsMapHas, List.filter, hp] using ih

theorem jsMapGet_delete_ne {V : Type} (m : List (String × V)) (k k' : String)
    (h : k ≠ k') : jsMapGet (jsMapDelete m k) k' = jsMapGet m k' := by
  induction m with
  | nil => rfl
  | cons p m ih =>
      by_cases hp : p.1 == k
      · have hp' : ¬(p.1 == k') = true := by
          intro hx
          apply h
          have e1 : p.1 = k := by simpa using hp
          have e2 : p.1 = k' := by simpa using hx
          rw [← e1, e2]
        simp only [jsMapDelete, List.filter, hp] at ih ⊢
        simp only [Bool.not_true, jsMapGet, List.find?, hp']
        simpa [jsMapGet] using ih
      · simp only [jsMapDelete, List.filter, hp, Bool.not_false] at ih ⊢
        by_cases hp' : p.1 == k'
        · simp [jsMapGet, List.find?, hp']
        · simp only [jsMapGet, List.find?, hp']
          simpa [jsMapGet] using ih

theorem jsMapGet_mapset_ne {V : Type} (m : List (String × V)) (k k' : String)
    (v : V) (h : k ≠ k') :
    jsMapGet (m.map (fun p => if p.1 == k then (k, v) else p)) k' =
      jsMapGet m k' := by
  induction m with
  | nil => rfl
  | cons p m ih =>
      simp only [List.map_cons]
      by_cases hp : p.1 == k
      · have hp' : ¬(p.1 == k') = true := by
          intro hx
          apply h
          have e1 : p.1 = k := by simpa using hp
          have e2 : p.1 = k' := by simpa using hx
          rw [← e1, e2]
        have hkk' : ¬((k == k') = true) := by simpa using h
        rw [if_pos hp]
        simp only [jsMapGet, List.find?, hkk', hp']
        simpa [jsMapGet] using ih
      · rw [if_neg hp]
        by_cases hp' : p.1 == k'
        · simp [jsMapGet, List.find?, hp']
        · simp only [jsMapGet, List.find?, hp']
          simpa [jsMapGet] using ih

theorem jsMapGet_append_single_ne {V : Type} (m : List (String × V))
    (k k' : String) (v : V) (h : k ≠ k') :
    jsMapGet (m ++ [(k, v)]) k' = jsMapGet m k' := by
  have hkk' : ¬((k == k') = true) := by simpa using h
  induction m with
  | nil => simp [jsMapGet, List.find?, hkk']
  | cons p m ih =>
      simp only [List.cons_append]
      by_cases hp' : p.1 == k'
      · simp [jsMapGet, List.find?, hp']
      · simp only [jsMapGet, List.find?, hp']
        simpa [jsMapGet] using ih

theorem jsMapGet_set_ne {V : Type} (m : List (String × V)) (k k' : String)
    (v : V) (h : k ≠ k') : jsMapGet (jsMapSet m k v) k' = jsMapGet m k' := by
  simp only [jsMapSet]
  by_cases hc : jsMapHas m k = true
  · rw [if_pos hc]
    exact jsMapGet_mapset_ne m k k' v h
  · rw [if_neg hc]
    exact jsMapGet_append_single_ne m k k' v h

theorem registryInv_init : RegistryInv initState := by
  intro sid info h
  simp [initState] at h

theorem registryInv_step {st st' : ServerState} (hstep : Step st st')
    (hinv : RegistryInv st) : RegistryInv st' := by
  cases hstep with
  | start body now resp st st' heq =>
      simp only [startHandler] at heq
      split at heq
      · injection heq with h
        injection h with h1 h2
        rw [← h2]
        exact hinv
      · split at heq
        · exact Except.noConfusion heq
        · injection heq with h
          injection h with h1 h2
          rw [← h2]
          intro sid info hmem
          rcases mem_jsMapSet _ _ _ _ _ hmem with hmm | hmm
          · obtain ⟨hs, i, hp, hlt⟩ := hinv sid info hmm
            exact ⟨hs, i, hp, by simp only [List.length_append]; omega⟩
          · injection hmm with hsid hinfo
            subst hinfo
            exact ⟨rfl, st.procs.length, rfl, by simp⟩
  | stop sid resp st st' heq =>
      simp only [stopHandler] at heq
      split at heq
      · injection heq with h
        injection h with h1 h2
        rw [← h2]
        exact hinv
      · split at heq
        · exact Except.noConfusion heq
        · split at heq
          · exact Except.noConfusion heq
          · injection heq with h
            injection h with h1 h2
            rw [← h2]
            intro sid' info' hmem
            have hmem' := mem_jsMapDelete _ _ _ _ hmem
            obtain ⟨hs, i, hp, hlt⟩ := hinv sid' info' hmem'
            refine ⟨hs, i, hp, ?_⟩
            simp only [killAt]
            split <;> simpa using hlt
  | procExit i code st p hproc halive =>
      simp only [execCallback, hproc]
      split
      · intro sid' info' hmem
        have hmem' := mem_jsMapDelete _ _ _ _ hmem
        obtain ⟨hs, j, hp, hlt⟩ := hinv sid' info' hmem'
        exact ⟨hs, j, hp, by simpa using hlt⟩
      · intro sid' info' hmem
        obtain ⟨hs, j, hp, hlt⟩ := hinv sid' info' hmem
        exact ⟨hs, j, hp, by simpa using hlt⟩
  | procOutput i chunk st p hproc halive =>
      simp only [stdoutData, hproc]
      split
      · intro sid' info' hmem
        exact hinv sid' info' hmem
      · intro sid' info' hmem
        exact hinv sid' info' hmem

theorem registryInv_reachable {st : ServerState} (h : Reachable st) :
    RegistryInv st := by
  induction h with
  | init => exact registryInv_init
  | step _ hstep ih => exact registryInv_step hstep ih

/-! ## Supporting lemmas for the handlers -/
theorem jsMapHas_of_get {V : Type} (m : List (String × V)) (k : String) (v : V)
    (h : jsMapGet m k = some v) : jsMapHas m k = true := by
  induction m with
  | nil => simp [jsMapGet] at h
  | cons p m ih =>
      by_cases hp : p.1 == k
      · simp [jsMapHas, hp]
      · simp only [jsMapGet, List.find?, hp] at h
        simpa [jsMapHas, hp] using ih h

theorem startInvalid_iff (body : StartBody) :
    startInvalid body = true ↔
      (strTruthy body.sourceUrl = false ∨ body.destinations = none ∨
        body.destinations = some []) := by
  cases body with
  | mk src dests settings =>
      simp only [startInvalid]
      cases dests with
      | none => simp
      | some l =>
          cases l with
          | nil => simp
          | cons d ds => simp [Bool.or_eq_true]

theorem demoStarted_eq :
    startHandler demoBody 1000 initState =
      .ok (⟨200, true, some "1000"⟩, demoStarted) := by
  rfl

theorem demoStarted_reachable : Reachable demoStarted :=
  Reachable.step Reachable.init
    (Step.start demoBody 1000 ⟨200, true, some "1000"⟩ initState demoStarted
      demoStarted_eq)

theorem demoStopped_eq :
    stopHandler "1000" demoStarted = .ok (⟨200, true⟩, demoStopped) := rfl

theorem demoStopped_reachable : Reachable demoStopped :=
  Reachable.step demoStarted_reachable
    (Step.stop "1000" ⟨200, true⟩ demoStarted demoStopped demoStopped_eq)

/-! ## Claims -/
/-- C1: in every reachable server state, the status of a registered session is
`"active"` iff its registry entry holds a live (non-null) process handle;
no reachable state contains an entry that is active with no handle or
inactive while still holding a handle. -/
theorem C1_active_iff_handle (st : ServerState) (h : Reachable st) :
    ∀ sid info, (sid, info) ∈ st.activeStreams →
      (info.status = "active" ↔ info.process.isSome = true) := by
  intro sid info hmem
  obtain ⟨hs, i, hp, _⟩ := registryInv_reachable h sid info hmem
  constructor
  · intro _
    rw [hp]
    rfl
  · intro _
    exact hs

theorem C1_witness :
    (SessionInfo.mk "active" 1000 [demoDest] (some 0) emptySettings).status =
        "active" ↔
      (SessionInfo.mk "active" 1000 [demoDest] (some 0)
        emptySettings).process.isSome = true :=
  C1_active_iff_handle demoStarted demoStarted_reachable "1000"
    (SessionInfo.mk "active" 1000 [demoDest] (some 0) emptySettings) (by decide)

/-- C2 counterexample: a start request whose (non-empty) destination list
contains only disabled destinations does NOT fail with a 400
`ValidationError`: it returns 200/success and registers a session. -/
theorem C2_counterexample :
    (startHandler disabledBody 1000 initState).toOption.map
        (fun p => (p.1.status, p.1.success, p.2.activeStreams.length)) =
      some (200, true, 1) := rfl

/-- C2 amended: `startStream` fails with the 400 validation response — and
then the registry and process table are left exactly unchanged — precisely
when `sourceUrl` is falsy or the destinations field is absent or the empty
list; a non-empty all-disabled destinations list passes validation. -/
theorem C2_validation (body : StartBody) (now : Nat) (st : ServerState) :
    startHandler body now st = .ok (⟨400, false, none⟩, st) ↔
      (strTruthy body.sourceUrl = false ∨ body.destinations = none ∨
        body.destinations = some []) := by
  rw [← startInvalid_iff]
  constructor
  · intro h
    cases hb : startInvalid body
    · simp only [startHandler, hb, Bool.false_eq_true, if_false] at h
      split at h
      · exact Except.noConfusion h
      · injection h with hp
        injection hp with h1 h2
        have := congrArg StartResp.status h1
        simp at this
    · rfl
  · intro h
    simp [startHandler, h]

/-- C3: stopping an absent id returns 404 and changes nothing; stopping a
present id sends exactly one termination signal to the process of that session,
removes the session, and broadcasts `stream_stopped`; a second stop of the
same id then returns 404 and changes nothing further (the process is
signalled at most once). -/
theorem C3_stop_twice (st : ServerState) (h : Reachable st) (sid : String) :
    (jsMapGet st.activeStreams sid = none →
      stopHandler sid st = .ok (⟨404, false⟩, st)) ∧
    (∀ info, jsMapGet st.activeStreams sid = some info →
      ∃ i st', info.process = some i ∧
        stopHandler sid st = .ok (⟨200, true⟩, st') ∧
        st'.activeStreams = jsMapDelete st.activeStreams sid ∧
        jsMapHas st'.activeStreams sid = false ∧
        st'.events = st.events ++ [⟨.stream_stopped, sid⟩] ∧
        st'.procs = killAt st.procs i ∧
        (∀ p, st.procs[i]? = some p →
          st'.procs[i]? = some { p with kills := p.kills + 1 }) ∧
        stopHandler sid st' = .ok (⟨404, false⟩, st')) := by
  constructor
  · intro hget
    have hhas : jsMapHas st.activeStreams sid = false := by
      cases hb : jsMapHas st.activeStreams sid
      · rfl
      · obtain ⟨v, hv⟩ := jsMapGet_isSome_of_has _ _ hb
        rw [hget] at hv
        exact Option.noConfusion hv
    simp [stopHandler, hhas]
  · intro info hget
    obtain ⟨_, i, hp, _⟩ :=
      registryInv_reachable h sid info (jsMapGet_mem _ _ _ hget)
    have hhas := jsMapHas_of_get _ _ _ hget
    refine ⟨i, { activeStreams := jsMapDelete st.activeStreams sid,
                 events := st.events ++ [⟨.stream_stopped, sid⟩],
                 procs := killAt st.procs i },
      hp, ?_, rfl, jsMapHas_delete _ _, rfl, rfl, ?_, ?_⟩
    · simp [stopHandler, hhas, hget, hp]
    · intro p hpp
      have hlt : i < st.procs.length := by
        by_contra hge
        rw [List.getElem?_eq_none (by omega)] at hpp
        exact Option.noConfusion hpp
      simp [killAt, hpp, List.getElem?_set_self, hlt]
    · have hhas' : jsMapHas (jsMapDelete st.activeStreams sid) sid = false :=
        jsMapHas_delete _ _
      simp [stopHandler, hhas']

theorem C3_witness :
    (jsMapGet demoStarted.activeStreams "1000" = none →
      stopHandler "1000" demoStarted = .ok (⟨404, false⟩, demoStarted)) ∧
    (∀ info, jsMapGet demoStarted.activeStreams "1000" = some info →
      ∃ i st', info.process = some i ∧
        stopHandler "1000" demoStarted = .ok (⟨200, true⟩, st') ∧
        st'.activeStreams = jsMapDelete demoStarted.activeStreams "1000" ∧
        jsMapHas st'.activeStreams "1000" = false ∧
        st'.events = demoStarted.events ++ [⟨.stream_stopped, "1000"⟩] ∧
        st'.procs = killAt demoStarted.procs i ∧
        (∀ p, demoStarted.procs[i]? = some p →
          st'.procs[i]? = some { p with kills := p.kills + 1 }) ∧
        stopHandler "1000" st' = .ok (⟨404, false⟩, st')) :=
  C3_stop_twice demoStarted demoStarted_reachable "1000"

/-- C4 (code bug): after an explicit stop — whose `stream_stopped` should be
the terminal event of the session — the exit callback of the killed encoder fires with
a signal termination (`error.code = null`), the guard
`error && error.code !== 0` passes, and a further `stream_error` tagged
with the same session id is broadcast. -/
theorem C4_error_after_terminal :
    Reachable (execCallback 0 none demoStopped) ∧
    (execCallback 0 none demoStopped).events =
      [⟨.stream_stopped, "1000"⟩, ⟨.stream_error, "1000"⟩] := by
  constructor
  · exact Reachable.step demoStopped_reachable
      (Step.procExit 0 none demoStopped
        ⟨"1000", buildCmd "rtsp://src" [demoDest] emptySettings 1000, true, 1⟩
        rfl rfl)
  · rfl

theorem demoStarted2_eq :
    startHandler demoBody 1000 demoStarted =
      .ok (⟨200, true, some "1000"⟩, demoStarted2) := rfl

/-- C9 counterexample: two successful starts in the same millisecond
(`Date.now() = 1000` twice) both return the id `"1000"`, and the second
start overwrites the registry entry of the first session (the registry still
holds one entry, now pointing at the second process). -/
theorem C9_counterexample :
    startHandler demoBody 1000 initState =
      .ok (⟨200, true, some "1000"⟩, demoStarted) ∧
    startHandler demoBody 1000 demoStarted =
      .ok (⟨200, true, some "1000"⟩, demoStarted2) ∧
    demoStarted.activeStreams.length = 1 ∧
    demoStarted2.activeStreams.length = 1 ∧
    jsMapGet demoStarted2.activeStreams "1000" ≠
      jsMapGet demoStarted.activeStreams "1000" := by
  exact ⟨demoStarted_eq, demoStarted2_eq, rfl, rfl, by decide⟩

/-- C9 amended: two start calls that observe distinct `Date.now()` values
receive distinct session ids, and such a later start never overwrites an
existing registry entry; two calls within the same millisecond receive the
same id (and the later overwrites, per the counterexample). -/
theorem C9_distinct_ids (t1 t2 : Nat) (hne : t1 ≠ t2) :
    jsNumToString t1 ≠ jsNumToString t2 ∧
    (∀ st info body resp st',
      jsMapGet st.activeStreams (jsNumToString t1) = some info →
      startHandler body t2 st = .ok (resp, st') →
      jsMapGet st'.activeStreams (jsNumToString t1) = some info) := by
  constructor
  · intro h
    exact hne (jsNumToString_injective t1 t2 h)
  · intro st info body resp st' hget hstart
    simp only [startHandler] at hstart
    split at hstart
    · injection hstart with h
      injection h with h1 h2
      rw [← h2]
      exact hget
    · split at hstart
      · exact Except.noConfusion hstart
      · injection hstart with h
        injection h with h1 h2
        rw [← h2]
        rw [jsMapGet_set_ne]
        · exact hget
        · intro hx
          exact hne (jsNumToString_injective t1 t2 hx.symm)

theorem C9_witness : jsNumToString 0 ≠ jsNumToString 1 :=
  (C9_distinct_ids 0 1 (by decide)).1

/-- C10: when the body omits `settings` entirely while `sourceUrl` and a
non-empty destinations list are present, the handler does not apply the
defaults but throws a `TypeError` reading `settings.preset` (leaving the
state untouched); with any present settings object this branch is never
taken. -/
theorem C10_undefined_settings (src : String) (dests : List Destination)
    (now : Nat) (st : ServerState) (hsrc : src ≠ "") (hd : dests ≠ []) :
    startHandler ⟨some src, some dests, none⟩ now st = .error .typeError ∧
    (∀ settings : Settings, ∃ r,
      startHandler ⟨some src, some dests, some settings⟩ now st = .ok r) := by
  have hinv : ∀ s : Option Settings,
      startInvalid ⟨some src, some dests, s⟩ = false := by
    intro s
    simp [startInvalid, strTruthy, hsrc, List.isEmpty_iff, hd]
  constructor
  · simp [startHandler, hinv none]
  · intro settings
    refine ⟨(⟨200, true, some (jsNumToString now)⟩,
      { activeStreams := jsMapSet st.activeStreams (jsNumToString now)
          ⟨"active", now, dests, some st.procs.length, settings⟩,
        events := st.events,
        procs := st.procs ++
          [⟨jsNumToString now, buildCmd src dests settings now, true, 0⟩] }), ?_⟩
    simp [startHandler, hinv (some settings)]

theorem C10_witness :
    startHandler ⟨some "rtsp://src", some [demoDest], none⟩ 1000 initState =
      .error .typeError ∧
    (∀ settings : Settings, ∃ r,
      startHandler ⟨some "rtsp://src", some [demoDest], some settings⟩ 1000
        initState = .ok r) :=
  C10_undefined_settings "rtsp://src" [demoDest] 1000 initState
    (by decide) (by decide)

/-- C5: the telemetry parser returns "no stats" exactly when neither the
bitrate nor the fps pattern matches (a time match alone is insufficient);
otherwise it returns a complete record whose missing bitrate/fps default to
`0` and missing time to `"00:00:00"`; concretely, a chunk with
`bitrate=1234.5kbits/s` and `fps=30` and no time field parses to
`{bitrate: 1234.5, fps: 30, time: "00:00:00"}`. -/
theorem C5_telemetry (s : String) :
    (parseFFmpegStats s = none ↔
      (searchAux matchBitrateAt s.data = none ∧
        searchAux matchFpsAt s.data = none)) ∧
    (∀ stats, parseFFmpegStats s = some stats →
      (searchAux matchBitrateAt s.data = none → stats.bitrate = some 0) ∧
      (searchAux matchFpsAt s.data = none → stats.fps = 0) ∧
      (searchAux matchTimeAt s.data = none → stats.time = "00:00:00")) ∧
    parseFFmpegStats "fps=30 bitrate=1234.5kbits/s" =
      some ⟨some ((2469 : ℚ) / 2), 30, "00:00:00"⟩ ∧
    parseFFmpegStats "time=00:01:02" = none := by
  refine ⟨?_, ?_, ?_, by decide⟩
  · cases hb : searchAux matchBitrateAt s.data <;>
      cases hf : searchAux matchFpsAt s.data <;>
        simp [parseFFmpegStats, hb, hf]
  · intro stats hst
    cases hb : searchAux matchBitrateAt s.data <;>
      cases hf : searchAux matchFpsAt s.data <;>
        simp only [parseFFmpegStats, hb, hf, Option.isSome_none, Option.isSome_some,
          Bool.or_self, Bool.false_eq_true, if_false, Bool.or_true, Bool.true_or,
          if_true, Option.some.injEq] at hst
    · exact Option.noConfusion hst
    · refine ⟨fun _ => ?_, fun hx => Option.noConfusion hx, fun ht => ?_⟩ <;>
        rw [← hst] <;> simp [ht]
    · refine ⟨fun hx => Option.noConfusion hx, fun _ => ?_, fun ht => ?_⟩ <;>
        rw [← hst] <;> simp [ht]
    · refine ⟨fun hx => Option.noConfusion hx, fun hx => Option.noConfusion hx,
        fun ht => ?_⟩
      rw [← hst]
      simp [ht]
  · have hb : searchAux matchBitrateAt ("fps=30 bitrate=1234.5kbits/s").data =
        some ['1', '2', '3', '4', '.', '5'] := by decide
    have hf : searchAux matchFpsAt ("fps=30 bitrate=1234.5kbits/s").data =
        some ['3', '0'] := by decide
    have ht : searchAux matchTimeAt ("fps=30 bitrate=1234.5kbits/s").data =
        none := by decide
    have h1 : List.takeWhile isDigitCh ['1', '2', '3', '4', '.', '5'] =
        ['1', '2', '3', '4'] := by decide
    have h2 : List.dropWhile isDigitCh ['1', '2', '3', '4', '.', '5'] =
        ['.', '5'] := by decide
    have h3 : List.takeWhile isDigitCh ['5'] = ['5'] := by decide
    have h4 : chVal ['1', '2', '3', '4'] = 1234 := by decide
    have h5 : chVal ['5'] = 5 := by decide
    have h6 : chVal ['3', '0'] = 30 := by decide
    simp only [parseFFmpegStats, hb, hf, ht, Option.isSome_some, Bool.true_or,
      if_true, jsParseFloat, h1, h2, h3, h4, h5, h6]
    norm_num

theorem C5_witness :
    (parseFFmpegStats "bitrate=100kbits/s" = none ↔
      (searchAux matchBitrateAt ("bitrate=100kbits/s").data = none ∧
        searchAux matchFpsAt ("bitrate=100kbits/s").data = none)) ∧
    (∀ stats, parseFFmpegStats "bitrate=100kbits/s" = some stats →
      (searchAux matchBitrateAt ("bitrate=100kbits/s").data = none →
        stats.bitrate = some 0) ∧
      (searchAux matchFpsAt ("bitrate=100kbits/s").data = none →
        stats.fps = 0) ∧
      (searchAux matchTimeAt ("bitrate=100kbits/s").data = none →
        stats.time = "00:00:00")) ∧
    parseFFmpegStats "fps=30 bitrate=1234.5kbits/s" =
      some ⟨some ((2469 : ℚ) / 2), 30, "00:00:00"⟩ ∧
    parseFFmpegStats "time=00:01:02" = none :=
  C5_telemetry "bitrate=100kbits/s"

theorem callbackResp_ok (u : String) (r : ExecResult) :
    (callbackResp u r).status = 200 ∧
      ((callbackResp u r).success = false →
        (callbackResp u r).message.isSome = true) := by
  cases r with
  | execErr m => simp [callbackResp]
  | done out =>
      simp only [callbackResp]
      split
      · simp
      · simp

/-- C6: every extract-stream request, in every interleaving of the resolver
callback and the forced-timeout path, yields exactly one response; that
response has HTTP status 200 and carries a machine-readable success flag
(with a message on failure); and when the two paths race, exactly the first
one determines the final response. -/
theorem C6_extract_once (url : Option String) (r : ExecResult)
    (timing : ExtractTiming) :
    (∃ resp, extractHandler url r timing = some resp) ∧
    (∀ resp, extractHandler url r timing = some resp →
      resp.status = 200 ∧ (resp.success = false → resp.message.isSome = true)) ∧
    (strTruthy url = true → timing = .finishesWithinBudget →
      extractHandler url r timing = some (callbackResp (url.getD "") r)) ∧
    (strTruthy url = true → timing = .timeoutThenCallback →
      extractHandler url r timing = some timeoutResp) ∧
    (strTruthy url = true → timing = .callbackThenTimeout →
      extractHandler url r timing = some (callbackResp (url.getD "") r)) := by
  by_cases hu : strTruthy url = true
  · have hhandler : ∀ t : ExtractTiming, extractHandler url r t =
        (match t with
         | .finishesWithinBudget => some (callbackResp (url.getD "") r)
         | .timeoutThenCallback => some timeoutResp
         | .callbackThenTimeout => some (callbackResp (url.getD "") r)) := by
      intro t
      cases t <;> simp [extractHandler, hu, sendResp]
    refine ⟨?_, ?_, fun _ h => by rw [hhandler, h], fun _ h => by rw [hhandler, h],
      fun _ h => by rw [hhandler, h]⟩
    · cases timing <;> exact ⟨_, hhandler _⟩
    · intro resp hresp
      rw [hhandler] at hresp
      cases timing <;>
        simp only [Option.some.injEq] at hresp <;>
        rw [← hresp]
      · exact callbackResp_ok _ r
      · simp [timeoutResp]
      · exact callbackResp_ok _ r
  · have hu' : (!strTruthy url) = true := by
      cases hb : strTruthy url
      · rfl
      · exact absurd hb hu
    refine ⟨⟨urlRequiredResp, by simp [extractHandler, hu', sendResp]⟩, ?_,
      fun h => absurd h hu, fun h => absurd h hu, fun h => absurd h hu⟩
    intro resp hresp
    simp only [extractHandler, hu', if_true, sendResp, Option.some.injEq] at hresp
    rw [← hresp]
    simp [urlRequiredResp]

theorem C6_witness :
    extractHandler (some "https://example") (.done "u") .timeoutThenCallback =
      some timeoutResp :=
  (C6_extract_once (some "https://example") (.done "u")
    .timeoutThenCallback).2.2.2.1 rfl rfl

/-- C7: a start with a valid source, at least one enabled destination and an
empty settings object succeeds and registers exactly one active session,
and the constructed invocation carries the fixed defaults (`veryfast`,
2500 kbps video, `1280x720`, 30 fps, 128 kbps audio); each present settings
field overrides only its own parameter, leaving the others at their
defaults. -/
theorem C7_start_defaults (src : String) (dests : List Destination)
    (now : Nat) (st : ServerState) (hsrc : src ≠ "") (hd : dests ≠ [])
    (hen : ∃ d ∈ dests, d.enabled = true) :
    startHandler ⟨some src, some dests, some emptySettings⟩ now st =
      .ok (⟨200, true, some (jsNumToString now)⟩,
        { activeStreams := jsMapSet st.activeStreams (jsNumToString now)
            ⟨"active", now, dests, some st.procs.length, emptySettings⟩,
          events := st.events,
          procs := st.procs ++ [⟨jsNumToString now,
            buildCmd src dests emptySettings now, true, 0⟩] }) ∧
    (jsMapHas st.activeStreams (jsNumToString now) = false →
      (jsMapSet st.activeStreams (jsNumToString now)
        ⟨"active", now, dests, some st.procs.length, emptySettings⟩).length =
        st.activeStreams.length + 1) ∧
    buildCmd src dests emptySettings now =
      "ffmpeg -re -i \"" ++ src ++ "\" " ++ "-c:v libx264 -preset " ++
        "veryfast" ++ " " ++ "-b:v " ++ "2500" ++ "k " ++ "-maxrate " ++
        "2500" ++ "k " ++ "-bufsize " ++ "5000" ++ "k " ++ "-s " ++
        "1280x720" ++ " " ++ "-r " ++ "30" ++ " " ++ "-g " ++ "60" ++ " " ++
        "-c:a aac -b:a " ++ "128" ++ "k " ++ "-ar 44100 -ac 2 " ++
        String.join (dests.map destSegment) ++ "" ++
        " -loglevel verbose 2>&1" ∧
    (∀ p : String, p ≠ "" →
      buildCmd src dests ⟨some p, none, none, none, none, none⟩ now =
        "ffmpeg -re -i \"" ++ src ++ "\" " ++ "-c:v libx264 -preset " ++
          p ++ " " ++ "-b:v " ++ "2500" ++ "k " ++ "-maxrate " ++ "2500" ++
          "k " ++ "-bufsize " ++ "5000" ++ "k " ++ "-s " ++ "1280x720" ++
          " " ++ "-r " ++ "30" ++ " " ++ "-g " ++ "60" ++ " " ++
          "-c:a aac -b:a " ++ "128" ++ "k " ++ "-ar 44100 -ac 2 " ++
          String.join (dests.map destSegment) ++ "" ++
          " -loglevel verbose 2>&1") ∧
    (∀ n : Nat, n ≠ 0 →
      buildCmd src dests ⟨none, some n, none, none, none, none⟩ now =
        "ffmpeg -re -i \"" ++ src ++ "\" " ++ "-c:v libx264 -preset " ++
          "veryfast" ++ " " ++ "-b:v " ++ jsNumToString n ++ "k " ++
          "-maxrate " ++ jsNumToString n ++ "k " ++ "-bufsize " ++
          jsNumToString (n * 2) ++ "k " ++ "-s " ++ "1280x720" ++ " " ++
          "-r " ++ "30" ++ " " ++ "-g " ++ "60" ++ " " ++
          "-c:a aac -b:a " ++ "128" ++ "k " ++ "-ar 44100 -ac 2 " ++
          String.join (dests.map destSegment) ++ "" ++
          " -loglevel verbose 2>&1") ∧
    (∀ rs : String, rs ≠ "" →
      buildCmd src dests ⟨none, none, some rs, none, none, none⟩ now =
        "ffmpeg -re -i \"" ++ src ++ "\" " ++ "-c:v libx264 -preset " ++
          "veryfast" ++ " " ++ "-b:v " ++ "2500" ++ "k " ++ "-maxrate " ++
          "2500" ++ "k " ++ "-bufsize " ++ "5000" ++ "k " ++ "-s " ++ rs ++
          " " ++ "-r " ++ "30" ++ " " ++ "-g " ++ "60" ++ " " ++
          "-c:a aac -b:a " ++ "128" ++ "k " ++ "-ar 44100 -ac 2 " ++
          String.join (dests.map destSegment) ++ "" ++
          " -loglevel verbose 2>&1") ∧
    (∀ fr : Nat, fr ≠ 0 →
      buildCmd src dests ⟨none, none, none, some fr, none, none⟩ now =
        "ffmpeg -re -i \"" ++ src ++ "\" " ++ "-c:v libx264 -preset " ++
          "veryfast" ++ " " ++ "-b:v " ++ "2500" ++ "k " ++ "-maxrate " ++
          "2500" ++ "k " ++ "-bufsize " ++ "5000" ++ "k " ++ "-s " ++
          "1280x720" ++ " " ++ "-r " ++ jsNumToString fr ++ " " ++ "-g " ++
          jsNumToString (fr * 2) ++ " " ++ "-c:a aac -b:a " ++ "128" ++
          "k " ++ "-ar 44100 -ac 2 " ++
          String.join (dests.map destSegment) ++ "" ++
          " -loglevel verbose 2>&1") ∧
    (∀ ab : Nat, ab ≠ 0 →
      buildCmd src dests ⟨none, none, none, none, some ab, none⟩ now =
        "ffmpeg -re -i \"" ++ src ++ "\" " ++ "-c:v libx264 -preset " ++
          "veryfast" ++ " " ++ "-b:v " ++ "2500" ++ "k " ++ "-maxrate " ++
          "2500" ++ "k " ++ "-bufsize " ++ "5000" ++ "k " ++ "-s " ++
          "1280x720" ++ " " ++ "-r " ++ "30" ++ " " ++ "-g " ++ "60" ++
          " " ++ "-c:a aac -b:a " ++ jsNumToString ab ++ "k " ++
          "-ar 44100 -ac 2 " ++ String.join (dests.map destSegment) ++ "" ++
          " -loglevel verbose 2>&1") := by
  have hinv : startInvalid ⟨some src, some dests, some emptySettings⟩ = false := by
    simp [startInvalid, strTruthy, hsrc, List.isEmpty_iff, hd]
  have e1 : jsNumToString 2500 = "2500" := by decide
  have e2 : jsNumToString 5000 = "5000" := by decide
  have e3 : jsNumToString 30 = "30" := by decide
  have e4 : jsNumToString 60 = "60" := by decide
  have e5 : jsNumToString 128 = "128" := by decide
  refine ⟨by simp [startHandler, hinv], ?_, rfl, ?_, ?_, ?_, ?_, ?_⟩
  · intro hfresh
    simp [jsMapSet, hfresh]
  · intro p hp
    have hp' : (p == "") = false := by simp [hp]
    simp [buildCmd, cmdHeader, recordingSegment, jsOrStr, jsOrNat, boolTruthy,
      hp', e1, e2, e3, e4, e5]
  · intro n hn
    have hn' : (n == 0) = false := by simp [hn]
    simp [buildCmd, cmdHeader, recordingSegment, jsOrStr, jsOrNat, boolTruthy,
      hn', e1, e2, e3, e4, e5]
  · intro rs hrs
    have hrs' : (rs == "") = false := by simp [hrs]
    simp [buildCmd, cmdHeader, recordingSegment, jsOrStr, jsOrNat, boolTruthy,
      hrs', e1, e2, e3, e4, e5]
  · intro fr hfr
    have hfr' : (fr == 0) = false := by simp [hfr]
    simp [buildCmd, cmdHeader, recordingSegment, jsOrStr, jsOrNat, boolTruthy,
      hfr', e1, e2, e3, e4, e5]
  · intro ab hab
    have hab' : (ab == 0) = false := by simp [hab]
    simp [buildCmd, cmdHeader, recordingSegment, jsOrStr, jsOrNat, boolTruthy,
      hab', e1, e2, e3, e4, e5]

theorem C7_witness :
    startHandler ⟨some "rtsp://src", some [demoDest], some emptySettings⟩ 1000
        initState =
      .ok (⟨200, true, some (jsNumToString 1000)⟩,
        { activeStreams := jsMapSet initState.activeStreams (jsNumToString 1000)
            ⟨"active", 1000, [demoDest], some initState.procs.length,
              emptySettings⟩,
          events := initState.events,
          procs := initState.procs ++ [⟨jsNumToString 1000,
            buildCmd "rtsp://src" [demoDest] emptySettings 1000, true, 0⟩] }) ∧
    (jsMapHas initState.activeStreams (jsNumToString 1000) = false →
      (jsMapSet initState.activeStreams (jsNumToString 1000)
        ⟨"active", 1000, [demoDest], some initState.procs.length,
          emptySettings⟩).length = initState.activeStreams.length + 1) :=
  ⟨(C7_start_defaults "rtsp://src" [demoDest] 1000 initState (by decide)
      (by decide) ⟨demoDest, by decide, rfl⟩).1,
   (C7_start_defaults "rtsp://src" [demoDest] 1000 initState (by decide)
      (by decide) ⟨demoDest, by decide, rfl⟩).2.1⟩

theorem recStarted1_eq :
    startHandler recBody 1000 initState =
      .ok (⟨200, true, some "1000"⟩, recStarted1) := rfl

theorem recStarted2_eq :
    startHandler recBody 1000 recStarted1 =
      .ok (⟨200, true, some "1000"⟩, recStarted2) := rfl

/-- C8 counterexample: two recording-enabled sessions started in the same
millisecond (`Date.now() = 1000` twice) both succeed, and their two encoder
invocations — recording output path included — are character-identical, so
the two recording paths collide. -/
theorem C8_counterexample :
    startHandler recBody 1000 initState =
      .ok (⟨200, true, some "1000"⟩, recStarted1) ∧
    startHandler recBody 1000 recStarted1 =
      .ok (⟨200, true, some "1000"⟩, recStarted2) ∧
    boolTruthy recSettings.recording = true ∧
    recStarted2.procs.map ProcEntry.cmd =
      [buildCmd "rtsp://src" [demoDest] recSettings 1000,
       buildCmd "rtsp://src" [demoDest] recSettings 1000] :=
  ⟨recStarted1_eq, recStarted2_eq, rfl, rfl⟩

/-- C8 amended: a recording-enabled invocation contains exactly one
recording output path, and two recording-enabled sessions started at
distinct millisecond timestamps (below year 10000) get distinct
timestamp-derived paths; two starts within the same millisecond collide
(per the counterexample). -/
theorem C8_recording_paths (settings : Settings) (now t1 t2 : Nat)
    (hrec : boolTruthy settings.recording = true)
    (h1 : t1 < 253402300800000) (h2 : t2 < 253402300800000)
    (hne : t1 ≠ t2) :
    recordingOutputs settings now = [recordingPath now] ∧
    (∀ src dests, buildCmd src dests settings now =
      cmdHeader src dests settings ++
        ("-f flv \"" ++ recordingPath now ++ "\"") ++
        " -loglevel verbose 2>&1") ∧
    recordingPath t1 ≠ recordingPath t2 := by
  refine ⟨by simp [recordingOutputs, hrec], ?_, ?_⟩
  · intro src dests
    simp [buildCmd, recordingSegment, hrec]
  · intro hx
    exact hne (recordingPath_inj t1 t2 h1 h2 hx)

theorem C8_witness :
    recordingOutputs recSettings 0 = [recordingPath 0] ∧
    (∀ src dests, buildCmd src dests recSettings 0 =
      cmdHeader src dests recSettings ++
        ("-f flv \"" ++ recordingPath 0 ++ "\"") ++
        " -loglevel verbose 2>&1") ∧
    recordingPath 0 ≠ recordingPath 1 :=
  C8_recording_paths recSettings 0 0 1 rfl (by decide) (by decide) (by decide)

end MultiStream
